import Mathlib

/-!
Shallow embedding of the simple-vector (svec) module of the Julia runtime
(`simplevector.c`): a length-prefixed, garbage-collected vector of tagged
object references, with an empty-vector singleton, uninitialized / zero /
fill / copy / variadic / permanent-symbol constructors, and length /
is-assigned / checked-get accessors.

The garbage-collector boundary is modelled by an explicit state:
a heap (a list of svec objects, addresses are list indices), the
process-wide symbol intern table, and a counter of allocator invocations
(each allocator call is a potential safepoint).  `jl_gc_alloc` and
`jl_gc_permobj` return marker-filled (zeroed) storage, per the external
interface contract that allocation returns marker-safe memory.  The
unassigned marker (the C `NULL` reference) is `Option.none`.
-/

set_option autoImplicit false

namespace SimpleVector

/-- Heap references stored in svec slots: interned symbols (identified by
their index in the intern table) or other heap objects (opaque pointer). -/
inductive JlValue where
  | sym : Nat → JlValue
  | obj : Nat → JlValue
deriving DecidableEq

instance : Inhabited JlValue := ⟨JlValue.obj 0⟩

/-- An svec object: a length header, the reference slots of its storage
(`none` is the C `NULL`, the unassigned marker), and whether it lives in the
permanent (non-collectible) region. -/
structure SVecObj where
  len : Nat
  slots : List (Option JlValue)
  perm : Bool
deriving DecidableEq

instance : Inhabited SVecObj := ⟨⟨0, [], false⟩⟩

/-- The runtime state seen by this module: the heap of svec objects
(addresses are indices), the symbol intern table (symbol ids are indices),
and the number of allocator invocations so far (each one a potential
safepoint). -/
structure GCState where
  heap : List SVecObj
  symtab : List String
  allocCount : Nat
deriving DecidableEq

/-- Address of the process-wide singleton empty svec (`jl_emptysvec`). -/
def emptySVecAddr : Nat := 0

/-- The singleton empty svec object: length 0, no slots, permanent. -/
def emptyObj : SVecObj := ⟨0, [], true⟩

/-- A minimal well-formed state: only the empty-svec singleton exists. -/
def initState : GCState := ⟨[emptyObj], [], 0⟩

/-- The object stored at heap address `t` (a default dummy if out of range,
standing for the C undefined behavior of a wild pointer). -/
def heapObj (st : GCState) (t : Nat) : SVecObj := st.heap.getD t default

/-- Model of `jl_gc_alloc(ptls, nwords * sizeof(void*), jl_simplevector_type)`:
appends a fresh object whose storage (one header word plus `nwords - 1`
slots) is zeroed, returns its address, and counts one allocator invocation
(a potential safepoint). -/
def jl_gc_alloc (st : GCState) (nwords : Nat) : Nat × GCState :=
  (st.heap.length,
   { heap := st.heap ++ [⟨0, List.replicate (nwords - 1) none, false⟩],
     symtab := st.symtab,
     allocCount := st.allocCount + 1 })

/-- Model of `jl_gc_permobj`: same shape as `jl_gc_alloc` but the object is
placed in the permanent (non-collectible) region. -/
def jl_gc_permobj (st : GCState) (nwords : Nat) : Nat × GCState :=
  (st.heap.length,
   { heap := st.heap ++ [⟨0, List.replicate (nwords - 1) none, true⟩],
     symtab := st.symtab,
     allocCount := st.allocCount + 1 })

/-- Model of `jl_svec_set_len_raw(t, n)`: stamps `n` into the length
header of the object at address `t`. -/
def jl_svec_set_len_raw (st : GCState) (t n : Nat) : GCState :=
  { st with heap := st.heap.set t { heapObj st t with len := n } }

/-- Model of the `jl_svecset` store (value may be `NULL` = `none`); no
bounds are validated, an out-of-range store is a no-op here (undefined
behavior in C). -/
def jl_svecset (st : GCState) (t i : Nat) (x : Option JlValue) : GCState :=
  { st with
    heap := st.heap.set t
      { heapObj st t with slots := (heapObj st t).slots.set i x } }

/-- Model of the raw `jl_svecref` load: the slot's raw reference, possibly
`NULL` (= `none`); no bounds are validated, an out-of-range load reads the
marker here (undefined behavior in C). -/
def jl_svecref (st : GCState) (t i : Nat) : Option JlValue :=
  (heapObj st t).slots.getD i none

/-- Model of the `jl_svec_len` macro: reads the length header. -/
def jl_svec_len (st : GCState) (t : Nat) : Nat := (heapObj st t).len

/-- Model of the exported `jl_svec_len` function (`JL_NOTSAFEPOINT`):
`return jl_svec_len(t);` — a pure metadata read in the state-passing
shape shared by all operations of this module. -/
def jl_svec_len_export (st : GCState) (t : Nat) : Nat × GCState :=
  (jl_svec_len st t, st)

/-- Model of `jl_svec_isassigned(t, i)`: `jl_svecref(t, i) != NULL`. -/
def jl_svec_isassigned (st : GCState) (t i : Nat) : Bool :=
  (jl_svecref st t i).isSome

/-- The recoverable errors this module can raise. -/
inductive JlError where
  | undefref
deriving DecidableEq

/-- Model of the exported `jl_svec_ref(t, i)`: loads the raw slot and
throws `jl_undefref_exception` when it is `NULL` (the unassigned marker). -/
def jl_svec_ref (st : GCState) (t i : Nat) : Except JlError JlValue :=
  match jl_svecref st t i with
  | none => Except.error JlError.undefref
  | some v => Except.ok v

/-- Model of `jl_alloc_svec_uninit(n)`: returns the singleton for `n == 0`
without touching the allocator; otherwise allocates `n + 1` words and stamps
the length. -/
def jl_alloc_svec_uninit (st : GCState) (n : Nat) : Nat × GCState :=
  if n = 0 then (emptySVecAddr, st)
  else
    let p := jl_gc_alloc st (n + 1)
    (p.1, jl_svec_set_len_raw p.2 p.1 n)

/-- The `for (i = start; i < start + k; i++) jl_svecset(jv, i, g i);` loop
shared by the initializing constructors, with `g` the value written at
slot `i`. -/
def svec_wrloop (g : Nat → Option JlValue) : GCState → Nat → Nat → Nat → GCState
  | st, _, _, 0 => st
  | st, jv, i, k + 1 => svec_wrloop g (jl_svecset st jv i (g i)) jv (i + 1) k

/-- Model of `ijl_svec(n, ...)`: returns the singleton for `n == 0` without
consuming any argument; otherwise fills a fresh uninitialized svec with the
first `n` variadic arguments, left to right. -/
def ijl_svec (st : GCState) (n : Nat) (args : List JlValue) : Nat × GCState :=
  if n = 0 then (emptySVecAddr, st)
  else
    let p := jl_alloc_svec_uninit st n
    (p.1, svec_wrloop (fun i => some (args.getD i default)) p.2 p.1 0 n)

/-- Model of `jl_svec1(a)`: allocates 2 words, stamps length 1, stores `a`
at slot 0. -/
def jl_svec1 (st : GCState) (a : JlValue) : Nat × GCState :=
  let p := jl_gc_alloc st 2
  (p.1, jl_svecset (jl_svec_set_len_raw p.2 p.1 1) p.1 0 (some a))

/-- Model of `jl_svec2(a, b)`: allocates 3 words, stamps length 2, stores
`a` at slot 0 and `b` at slot 1. -/
def jl_svec2 (st : GCState) (a b : JlValue) : Nat × GCState :=
  let p := jl_gc_alloc st 3
  let st1 := jl_svec_set_len_raw p.2 p.1 2
  (p.1, jl_svecset (jl_svecset st1 p.1 0 (some a)) p.1 1 (some b))

/-- Model of `jl_alloc_svec(n)`: like `jl_alloc_svec_uninit` but every slot
is explicitly stored `NULL` (the unassigned marker). -/
def jl_alloc_svec (st : GCState) (n : Nat) : Nat × GCState :=
  if n = 0 then (emptySVecAddr, st)
  else
    let p := jl_alloc_svec_uninit st n
    (p.1, svec_wrloop (fun _ => none) p.2 p.1 0 n)

/-- The copy loop of `jl_svec_copy`: `jl_svecset(c, i, jl_svecref(a, i))`
for `i` in `[start, start + k)`, reading the evolving state. -/
def jl_svec_copy_loop : GCState → Nat → Nat → Nat → Nat → GCState
  | st, _, _, _, 0 => st
  | st, a, c, i, k + 1 =>
      jl_svec_copy_loop (jl_svecset st c i (jl_svecref st a i)) a c (i + 1) k

/-- Model of `jl_svec_copy(a)`: a fresh uninitialized svec of `a`'s length
whose slots are copied slot-wise with the raw (unchecked) accessor. -/
def jl_svec_copy (st : GCState) (a : Nat) : Nat × GCState :=
  let n := jl_svec_len st a
  let p := jl_alloc_svec_uninit st n
  (p.1, jl_svec_copy_loop p.2 a p.1 0 n)

/-- Model of `jl_svec_fill(n, x)`: returns the singleton for `n == 0`;
otherwise every slot of a fresh uninitialized svec is set to `x`. -/
def jl_svec_fill (st : GCState) (n : Nat) (x : JlValue) : Nat × GCState :=
  if n = 0 then (emptySVecAddr, st)
  else
    let p := jl_alloc_svec_uninit st n
    (p.1, svec_wrloop (fun _ => some x) p.2 p.1 0 n)

/-- Model of the process-wide idempotent symbol interning `jl_symbol(s)`:
returns the existing id when `s` is already interned, otherwise appends `s`
to the intern table. -/
def jl_symbol (st : GCState) (s : String) : Nat × GCState :=
  match st.symtab.findIdx? (· == s) with
  | some i => (i, st)
  | none => (st.symtab.length, { st with symtab := st.symtab ++ [s] })

/-- The fill loop of `jl_perm_symsvec`: for `i` in `[start, start + k)`,
`jl_svecset(jv, i, jl_symbol(names[i]))`, interning as it goes. -/
def jl_perm_symsvec_loop (names : List String) :
    GCState → Nat → Nat → Nat → GCState
  | st, _, _, 0 => st
  | st, jv, i, k + 1 =>
      let q := jl_symbol st (names.getD i "")
      jl_perm_symsvec_loop names
        (jl_svecset q.2 jv i (some (JlValue.sym q.1))) jv (i + 1) k

/-- Model of `jl_perm_symsvec(n, ...)`: returns the singleton for `n == 0`;
otherwise allocates `n + 1` words in the permanent region, stamps the
length, and fills the slots with the interned symbols of the first `n`
names, left to right. -/
def jl_perm_symsvec (st : GCState) (n : Nat) (names : List String) :
    Nat × GCState :=
  if n = 0 then (emptySVecAddr, st)
  else
    let p := jl_gc_permobj st (n + 1)
    let st1 := jl_svec_set_len_raw p.2 p.1 n
    (p.1, jl_perm_symsvec_loop names st1 p.1 0 n)

/-! List-level helper lemmas. -/

theorem getD_set_self {α : Type} (l : List α) (i : Nat) (x d : α)
    (h : i < l.length) : (l.set i x).getD i d = x := by
  simp [List.getD_eq_getElem?_getD, List.getElem?_set, h]

theorem getD_set_ne {α : Type} (l : List α) (i j : Nat) (x d : α)
    (h : j ≠ i) : (l.set i x).getD j d = l.getD j d := by
  simp [List.getD_eq_getElem?_getD, List.getElem?_set, Ne.symm h]

theorem getD_append_lt {α : Type} (l l' : List α) (j : Nat) (d : α)
    (h : j < l.length) : (l ++ l').getD j d = l.getD j d := by
  simp [List.getD_eq_getElem?_getD, List.getElem?_append, h]

theorem getD_append_len {α : Type} (l : List α) (x d : α) :
    (l ++ [x]).getD l.length d = x := by
  simp [List.getD_eq_getElem?_getD]

theorem set_append_len {α : Type} (l : List α) (x y : α) :
    (l ++ [x]).set l.length y = l ++ [y] := by
  rw [List.set_append_right] <;> simp

theorem getD_replicate_self {α : Type} (n i : Nat) (d : α) :
    (List.replicate n d).getD i d = d := by
  induction n generalizing i with
  | zero => simp [List.getD]
  | succ m ih => cases i <;> simp_all [List.replicate]

/-! Lemmas about the element store `jl_svecset`. -/

theorem heap_length_svecset (st : GCState) (t i : Nat) (x : Option JlValue) :
    (jl_svecset st t i x).heap.length = st.heap.length := by
  simp [jl_svecset]

theorem symtab_svecset (st : GCState) (t i : Nat) (x : Option JlValue) :
    (jl_svecset st t i x).symtab = st.symtab := rfl

theorem allocCount_svecset (st : GCState) (t i : Nat) (x : Option JlValue) :
    (jl_svecset st t i x).allocCount = st.allocCount := rfl

theorem svecset_oob (st : GCState) (t i : Nat) (x : Option JlValue)
    (h : st.heap.length ≤ t) : jl_svecset st t i x = st := by
  simp [jl_svecset, List.set_eq_of_length_le h]

theorem heapObj_svecset_ne (st : GCState) (t i t' : Nat) (x : Option JlValue)
    (h : t' ≠ t) : heapObj (jl_svecset st t i x) t' = heapObj st t' := by
  simp only [jl_svecset, heapObj]
  exact getD_set_ne _ _ _ _ _ h

theorem heapObj_svecset_self (st : GCState) (t i : Nat) (x : Option JlValue)
    (h : t < st.heap.length) :
    heapObj (jl_svecset st t i x) t =
      { heapObj st t with slots := (heapObj st t).slots.set i x } := by
  simp only [jl_svecset, heapObj]
  exact getD_set_self _ _ _ _ h

theorem len_heapObj_svecset (st : GCState) (t i t' : Nat) (x : Option JlValue) :
    (heapObj (jl_svecset st t i x) t').len = (heapObj st t').len := by
  by_cases ht : t' = t
  · subst ht
    by_cases hlt : t' < st.heap.length
    · rw [heapObj_svecset_self _ _ _ _ hlt]
    · rw [svecset_oob _ _ _ _ (Nat.le_of_not_lt hlt)]
  · rw [heapObj_svecset_ne _ _ _ _ _ ht]

theorem perm_heapObj_svecset (st : GCState) (t i t' : Nat) (x : Option JlValue) :
    (heapObj (jl_svecset st t i x) t').perm = (heapObj st t').perm := by
  by_cases ht : t' = t
  · subst ht
    by_cases hlt : t' < st.heap.length
    · rw [heapObj_svecset_self _ _ _ _ hlt]
    · rw [svecset_oob _ _ _ _ (Nat.le_of_not_lt hlt)]
  · rw [heapObj_svecset_ne _ _ _ _ _ ht]

theorem slotsLen_heapObj_svecset (st : GCState) (t i t' : Nat) (x : Option JlValue) :
    (heapObj (jl_svecset st t i x) t').slots.length =
      (heapObj st t').slots.length := by
  by_cases ht : t' = t
  · subst ht
    by_cases hlt : t' < st.heap.length
    · rw [heapObj_svecset_self _ _ _ _ hlt]; simp
    · rw [svecset_oob _ _ _ _ (Nat.le_of_not_lt hlt)]
  · rw [heapObj_svecset_ne _ _ _ _ _ ht]

theorem jl_svecref_svecset_self (st : GCState) (t i : Nat) (x : Option JlValue)
    (h1 : t < st.heap.length) (h2 : i < (heapObj st t).slots.length) :
    jl_svecref (jl_svecset st t i x) t i = x := by
  simp only [jl_svecref, heapObj_svecset_self _ _ _ _ h1]
  exact getD_set_self _ _ _ _ h2

theorem jl_svecref_svecset_ne (st : GCState) (t i t' j : Nat) (x : Option JlValue)
    (h : t' ≠ t ∨ j ≠ i) :
    jl_svecref (jl_svecset st t i x) t' j = jl_svecref st t' j := by
  rcases h with h | h
  · simp [jl_svecref, heapObj_svecset_ne _ _ _ _ _ h]
  · by_cases ht : t' = t
    · subst ht
      by_cases hlt : t' < st.heap.length
      · simp only [jl_svecref, heapObj_svecset_self _ _ _ _ hlt]
        exact getD_set_ne _ _ _ _ _ h
      · rw [svecset_oob _ _ _ _ (Nat.le_of_not_lt hlt)]
    · simp [jl_svecref, heapObj_svecset_ne _ _ _ _ _ ht]

/-! Lemmas about the length stamp `jl_svec_set_len_raw`. -/

theorem heap_length_setlen (st : GCState) (t n : Nat) :
    (jl_svec_set_len_raw st t n).heap.length = st.heap.length := by
  simp [jl_svec_set_len_raw]

theorem symtab_setlen (st : GCState) (t n : Nat) :
    (jl_svec_set_len_raw st t n).symtab = st.symtab := rfl

theorem allocCount_setlen (st : GCState) (t n : Nat) :
    (jl_svec_set_len_raw st t n).allocCount = st.allocCount := rfl

theorem setlen_oob (st : GCState) (t n : Nat) (h : st.heap.length ≤ t) :
    jl_svec_set_len_raw st t n = st := by
  simp [jl_svec_set_len_raw, List.set_eq_of_length_le h]

theorem heapObj_setlen_ne (st : GCState) (t n t' : Nat) (h : t' ≠ t) :
    heapObj (jl_svec_set_len_raw st t n) t' = heapObj st t' := by
  simp only [jl_svec_set_len_raw, heapObj]
  exact getD_set_ne _ _ _ _ _ h

theorem heapObj_setlen_self (st : GCState) (t n : Nat) (h : t < st.heap.length) :
    heapObj (jl_svec_set_len_raw st t n) t = { heapObj st t with len := n } := by
  simp only [jl_svec_set_len_raw, heapObj]
  exact getD_set_self _ _ _ _ h

theorem slots_heapObj_setlen (st : GCState) (t n t' : Nat) :
    (heapObj (jl_svec_set_len_raw st t n) t').slots = (heapObj st t').slots := by
  by_cases ht : t' = t
  · subst ht
    by_cases hlt : t' < st.heap.length
    · rw [heapObj_setlen_self _ _ _ hlt]
    · rw [setlen_oob _ _ _ (Nat.le_of_not_lt hlt)]
  · rw [heapObj_setlen_ne _ _ _ _ ht]

theorem jl_svecref_setlen (st : GCState) (t n t' j : Nat) :
    jl_svecref (jl_svec_set_len_raw st t n) t' j = jl_svecref st t' j := by
  simp [jl_svecref, slots_heapObj_setlen]

/-! Characterization of the positive-size allocations. -/

theorem jl_alloc_svec_uninit_pos (st : GCState) (n : Nat) (h : n ≠ 0) :
    jl_alloc_svec_uninit st n =
      (st.heap.length,
       { heap := st.heap ++ [⟨n, List.replicate n none, false⟩],
         symtab := st.symtab,
         allocCount := st.allocCount + 1 }) := by
  simp only [jl_alloc_svec_uninit, if_neg h, jl_gc_alloc, jl_svec_set_len_raw,
    heapObj, Nat.add_sub_cancel]
  rw [getD_append_len, set_append_len]

theorem jl_perm_symsvec_pos (st : GCState) (n : Nat) (names : List String)
    (h : n ≠ 0) :
    jl_perm_symsvec st n names =
      (st.heap.length,
       jl_perm_symsvec_loop names
         { heap := st.heap ++ [⟨n, List.replicate n none, true⟩],
           symtab := st.symtab,
           allocCount := st.allocCount + 1 }
         st.heap.length 0 n) := by
  simp only [jl_perm_symsvec, if_neg h, jl_gc_permobj, jl_svec_set_len_raw,
    heapObj, Nat.add_sub_cancel]
  rw [getD_append_len, set_append_len]

theorem heapObj_append_len (st : GCState) (o : SVecObj) (sy : List String)
    (c : Nat) :
    heapObj { heap := st.heap ++ [o], symtab := sy, allocCount := c }
      st.heap.length = o := by
  simp only [heapObj]
  exact getD_append_len _ _ _

theorem heapObj_append_lt (st : GCState) (o : SVecObj) (sy : List String)
    (c t : Nat) (h : t < st.heap.length) :
    heapObj { heap := st.heap ++ [o], symtab := sy, allocCount := c } t =
      heapObj st t := by
  simp only [heapObj]
  exact getD_append_lt _ _ _ _ h

/-! Lemmas about the shared constructor fill loop `svec_wrloop`. -/

theorem wrloop_heap_length (g : Nat → Option JlValue) (st : GCState)
    (jv i k : Nat) :
    (svec_wrloop g st jv i k).heap.length = st.heap.length := by
  induction k generalizing st i with
  | zero => rfl
  | succ m ih => rw [svec_wrloop, ih, heap_length_svecset]

theorem wrloop_symtab (g : Nat → Option JlValue) (st : GCState) (jv i k : Nat) :
    (svec_wrloop g st jv i k).symtab = st.symtab := by
  induction k generalizing st i with
  | zero => rfl
  | succ m ih => rw [svec_wrloop, ih, symtab_svecset]

theorem wrloop_allocCount (g : Nat → Option JlValue) (st : GCState)
    (jv i k : Nat) :
    (svec_wrloop g st jv i k).allocCount = st.allocCount := by
  induction k generalizing st i with
  | zero => rfl
  | succ m ih => rw [svec_wrloop, ih, allocCount_svecset]

theorem wrloop_len (g : Nat → Option JlValue) (st : GCState) (jv i k t : Nat) :
    (heapObj (svec_wrloop g st jv i k) t).len = (heapObj st t).len := by
  induction k generalizing st i with
  | zero => rfl
  | succ m ih => rw [svec_wrloop, ih, len_heapObj_svecset]

theorem wrloop_perm (g : Nat → Option JlValue) (st : GCState) (jv i k t : Nat) :
    (heapObj (svec_wrloop g st jv i k) t).perm = (heapObj st t).perm := by
  induction k generalizing st i with
  | zero => rfl
  | succ m ih => rw [svec_wrloop, ih, perm_heapObj_svecset]

theorem wrloop_slotsLen (g : Nat → Option JlValue) (st : GCState)
    (jv i k t : Nat) :
    (heapObj (svec_wrloop g st jv i k) t).slots.length =
      (heapObj st t).slots.length := by
  induction k generalizing st i with
  | zero => rfl
  | succ m ih => rw [svec_wrloop, ih, slotsLen_heapObj_svecset]

theorem wrloop_ref_untouched (g : Nat → Option JlValue) (st : GCState)
    (jv i k t j : Nat) (h : t ≠ jv ∨ j < i) :
    jl_svecref (svec_wrloop g st jv i k) t j = jl_svecref st t j := by
  induction k generalizing st i with
  | zero => rfl
  | succ m ih =>
      rw [svec_wrloop]
      rw [ih _ (i + 1) (by omega), jl_svecref_svecset_ne]
      omega

theorem wrloop_ref_in (g : Nat → Option JlValue) (st : GCState)
    (jv i k j : Nat) (hjv : jv < st.heap.length) (h1 : i ≤ j) (h2 : j < i + k)
    (hs : j < (heapObj st jv).slots.length) :
    jl_svecref (svec_wrloop g st jv i k) jv j = g j := by
  induction k generalizing st i with
  | zero => omega
  | succ m ih =>
      rw [svec_wrloop]
      by_cases hji : j = i
      · subst hji
        rw [wrloop_ref_untouched _ _ _ _ _ _ _ (Or.inr (by omega))]
        exact jl_svecref_svecset_self _ _ _ _ hjv hs
      · exact ih _ (i + 1)
          (by rw [heap_length_svecset]; exact hjv) (by omega) (by omega)
          (by rw [slotsLen_heapObj_svecset]; exact hs)

/-! The copy loop reads its source in the evolving state; when source and
target differ it coincides with `svec_wrloop` applied to the initial
snapshot of the source. -/

theorem copy_loop_eq_wrloop (st : GCState) (a c i k : Nat) (h : a ≠ c) :
    jl_svec_copy_loop st a c i k =
      svec_wrloop (fun j => jl_svecref st a j) st c i k := by
  induction k generalizing st i with
  | zero => rfl
  | succ m ih =>
      rw [jl_svec_copy_loop, svec_wrloop, ih _ (i + 1)]
      have hg : ∀ j, jl_svecref (jl_svecset st c i (jl_svecref st a i)) a j =
          jl_svecref st a j := by
        intro j
        exact jl_svecref_svecset_ne _ _ _ _ _ _ (Or.inl h)
      have hfun : (fun j => jl_svecref (jl_svecset st c i (jl_svecref st a i)) a j)
          = fun j => jl_svecref st a j := funext hg
      rw [hfun]

/-! Lemmas about the symbol interning `jl_symbol`. -/

theorem findIdx_append_some {α : Type} (l l' : List α) (p : α → Bool) (j : Nat)
    (h : l.findIdx? p = some j) : (l ++ l').findIdx? p = some j := by
  simp [List.findIdx?_append, h, Option.or]

theorem jl_symbol_heap (st : GCState) (s : String) :
    (jl_symbol st s).2.heap = st.heap := by
  unfold jl_symbol
  cases st.symtab.findIdx? (· == s) <;> rfl

theorem heapObj_jl_symbol (st : GCState) (s : String) (t : Nat) :
    heapObj (jl_symbol st s).2 t = heapObj st t := by
  simp only [heapObj, jl_symbol_heap]

theorem jl_symbol_symtab_extends (st : GCState) (s : String) :
    ∃ l, (jl_symbol st s).2.symtab = st.symtab ++ l := by
  unfold jl_symbol
  cases st.symtab.findIdx? (· == s) with
  | none => exact ⟨[s], rfl⟩
  | some i => exact ⟨[], by simp⟩

theorem jl_symbol_found (st : GCState) (s : String) :
    (jl_symbol st s).2.symtab.findIdx? (· == s) = some (jl_symbol st s).1 := by
  unfold jl_symbol
  cases h : st.symtab.findIdx? (· == s) with
  | none => simp [List.findIdx?_append, h, Option.or, List.findIdx?_cons]
  | some i => simpa using h

theorem jl_symbol_stable (st : GCState) (s : String) (i : Nat)
    (h : st.symtab.findIdx? (· == s) = some i) : jl_symbol st s = (i, st) := by
  unfold jl_symbol
  rw [h]

/-! Lemmas about the fill loop of `jl_perm_symsvec`. -/

theorem permloop_heap_length (names : List String) (st : GCState)
    (jv i k : Nat) :
    (jl_perm_symsvec_loop names st jv i k).heap.length = st.heap.length := by
  induction k generalizing st i with
  | zero => rfl
  | succ m ih =>
      simp only [jl_perm_symsvec_loop]
      rw [ih, heap_length_svecset]
      simp [jl_symbol_heap]

theorem permloop_len (names : List String) (st : GCState) (jv i k t : Nat) :
    (heapObj (jl_perm_symsvec_loop names st jv i k) t).len =
      (heapObj st t).len := by
  induction k generalizing st i with
  | zero => rfl
  | succ m ih =>
      simp only [jl_perm_symsvec_loop]
      rw [ih, len_heapObj_svecset, heapObj_jl_symbol]

theorem permloop_perm (names : List String) (st : GCState) (jv i k t : Nat) :
    (heapObj (jl_perm_symsvec_loop names st jv i k) t).perm =
      (heapObj st t).perm := by
  induction k generalizing st i with
  | zero => rfl
  | succ m ih =>
      simp only [jl_perm_symsvec_loop]
      rw [ih, perm_heapObj_svecset, heapObj_jl_symbol]

theorem permloop_slotsLen (names : List String) (st : GCState)
    (jv i k t : Nat) :
    (heapObj (jl_perm_symsvec_loop names st jv i k) t).slots.length =
      (heapObj st t).slots.length := by
  induction k generalizing st i with
  | zero => rfl
  | succ m ih =>
      simp only [jl_perm_symsvec_loop]
      rw [ih, slotsLen_heapObj_svecset, heapObj_jl_symbol]

theorem permloop_symtab_extends (names : List String) (st : GCState)
    (jv i k : Nat) :
    ∃ l, (jl_perm_symsvec_loop names st jv i k).symtab = st.symtab ++ l := by
  induction k generalizing st i with
  | zero => exact ⟨[], by simp [jl_perm_symsvec_loop]⟩
  | succ m ih =>
      simp only [jl_perm_symsvec_loop]
      obtain ⟨l, hl⟩ := ih
        (jl_svecset (jl_symbol st (names.getD i "")).2 jv i
          (some (JlValue.sym (jl_symbol st (names.getD i "")).1))) (i + 1)
      obtain ⟨l0, hl0⟩ := jl_symbol_symtab_extends st (names.getD i "")
      exact ⟨l0 ++ l, by rw [hl, symtab_svecset, hl0, List.append_assoc]⟩

theorem permloop_ref_untouched (names : List String) (st : GCState)
    (jv i k t j : Nat) (h : t ≠ jv ∨ j < i) :
    jl_svecref (jl_perm_symsvec_loop names st jv i k) t j =
      jl_svecref st t j := by
  induction k generalizing st i with
  | zero => rfl
  | succ m ih =>
      simp only [jl_perm_symsvec_loop]
      rw [ih _ (i + 1) (by omega), jl_svecref_svecset_ne _ _ _ _ _ _ (by omega)]
      simp [jl_svecref, heapObj_jl_symbol]

theorem permloop_slot_interned (names : List String) (st : GCState)
    (jv i k j : Nat) (hjv : jv < st.heap.length) (h1 : i ≤ j) (h2 : j < i + k)
    (hs : j < (heapObj st jv).slots.length) :
    ∃ s : Nat,
      jl_svecref (jl_perm_symsvec_loop names st jv i k) jv j
        = some (JlValue.sym s) ∧
      jl_symbol (jl_perm_symsvec_loop names st jv i k) (names.getD j "")
        = (s, jl_perm_symsvec_loop names st jv i k) := by
  induction k generalizing st i with
  | zero => omega
  | succ m ih =>
      simp only [jl_perm_symsvec_loop]
      by_cases hji : j = i
      · subst hji
        refine ⟨(jl_symbol st (names.getD j "")).1, ?_, ?_⟩
        · rw [permloop_ref_untouched _ _ _ _ _ _ _ (Or.inr (by omega))]
          apply jl_svecref_svecset_self
          · rw [jl_symbol_heap]; exact hjv
          · rw [heapObj_jl_symbol]; exact hs
        · apply jl_symbol_stable
          obtain ⟨l, hl⟩ := permloop_symtab_extends names
            (jl_svecset (jl_symbol st (names.getD j "")).2 jv j
              (some (JlValue.sym (jl_symbol st (names.getD j "")).1)))
            jv (j + 1) m
          rw [hl, symtab_svecset]
          exact findIdx_append_some _ _ _ _ (jl_symbol_found st _)
      · exact ih _ (i + 1)
          (by rw [heap_length_svecset, jl_symbol_heap]; exact hjv)
          (by omega) (by omega)
          (by rw [slotsLen_heapObj_svecset, heapObj_jl_symbol]; exact hs)

/-! Helper facts shared by several claim proofs. -/

theorem jl_svec_ref_congr (st1 st2 : GCState) (t1 i1 t2 i2 : Nat)
    (h : jl_svecref st1 t1 i1 = jl_svecref st2 t2 i2) :
    jl_svec_ref st1 t1 i1 = jl_svec_ref st2 t2 i2 := by
  unfold jl_svec_ref
  rw [h]

theorem fill_slot_raw (st : GCState) (n i : Nat) (x : JlValue) (hn : n ≠ 0)
    (hi : i < n) :
    jl_svecref (jl_svec_fill st n x).2 (jl_svec_fill st n x).1 i = some x := by
  simp only [jl_svec_fill, if_neg hn, jl_alloc_svec_uninit_pos st n hn]
  apply wrloop_ref_in
  · simp
  · omega
  · omega
  · rw [heapObj_append_len]
    simpa using hi

/-- C1: every constructor (uninitialized, zero, fill, variadic,
permanent-symbol) called with `n == 0` returns the process-wide singleton
empty vector and leaves the state — in particular the allocator-invocation
count — untouched, so the identity is the same across all constructors and
across repeated calls and the allocator is never invoked. -/
theorem C1_zero_size_singleton (st : GCState) (x : JlValue)
    (args : List JlValue) (names : List String) :
    jl_alloc_svec_uninit st 0 = (emptySVecAddr, st) ∧
    jl_alloc_svec st 0 = (emptySVecAddr, st) ∧
    jl_svec_fill st 0 x = (emptySVecAddr, st) ∧
    ijl_svec st 0 args = (emptySVecAddr, st) ∧
    jl_perm_symsvec st 0 names = (emptySVecAddr, st) :=
  ⟨rfl, rfl, rfl, rfl, rfl⟩

/-- C2: for an in-bounds index, the checked accessor `jl_svec_ref` raises
the unassigned-reference error exactly when the slot holds the unassigned
marker, and when the slot is assigned it returns that slot's reference —
never a null-like value. -/
theorem C2_checked_get (st : GCState) (t i : Nat) (h : i < jl_svec_len st t) :
    (jl_svec_ref st t i = Except.error JlError.undefref ↔
      jl_svec_isassigned st t i = false) ∧
    ∀ v : JlValue, jl_svecref st t i = some v →
      jl_svec_ref st t i = Except.ok v := by
  unfold jl_svec_ref jl_svec_isassigned
  cases h' : jl_svecref st t i <;> simp [h']

/-- C2 witness: a concrete in-bounds access on a freshly filled vector. -/
theorem C2_checked_get_witness :
    0 < jl_svec_len (jl_svec_fill initState 1 (JlValue.obj 5)).2 1 ∧
    ((jl_svec_ref (jl_svec_fill initState 1 (JlValue.obj 5)).2 1 0 =
        Except.error JlError.undefref ↔
      jl_svec_isassigned (jl_svec_fill initState 1 (JlValue.obj 5)).2 1 0
        = false) ∧
    ∀ v : JlValue,
      jl_svecref (jl_svec_fill initState 1 (JlValue.obj 5)).2 1 0 = some v →
      jl_svec_ref (jl_svec_fill initState 1 (JlValue.obj 5)).2 1 0
        = Except.ok v) :=
  ⟨by decide, C2_checked_get _ 1 0 (by decide)⟩

/-- C4: every slot of an uninitialized allocation of positive size is
unassigned before any write, the allocation primitive being modelled as
returning zeroed (marker-filled) memory per the external contract. -/
theorem C4_uninit_unassigned (st : GCState) (n i : Nat) (hn : 0 < n)
    (hi : i < n) :
    jl_svec_isassigned (jl_alloc_svec_uninit st n).2
      (jl_alloc_svec_uninit st n).1 i = false := by
  rw [jl_alloc_svec_uninit_pos st n (by omega)]
  simp only [jl_svec_isassigned, jl_svecref, heapObj_append_len]
  simp [getD_replicate_self]

/-- C4 witness: a concrete uninitialized allocation of size 1. -/
theorem C4_uninit_unassigned_witness :
    0 < 1 ∧ 0 < 1 ∧
    jl_svec_isassigned (jl_alloc_svec_uninit initState 1).2
      (jl_alloc_svec_uninit initState 1).1 0 = false :=
  ⟨by decide, by decide,
   C4_uninit_unassigned initState 1 0 (by decide) (by decide)⟩

/-- C7: every in-bounds slot of a fill allocation of positive size reads
back (through the checked accessor) the fill value. -/
theorem C7_fill_value (st : GCState) (n i : Nat) (x : JlValue) (hn : 0 < n)
    (hi : i < n) :
    jl_svec_ref (jl_svec_fill st n x).2 (jl_svec_fill st n x).1 i
      = Except.ok x := by
  have h := fill_slot_raw st n i x (by omega) hi
  simp [jl_svec_ref, h]

/-- C7 witness: a concrete fill allocation of size 2. -/
theorem C7_fill_value_witness :
    0 < 2 ∧ 1 < 2 ∧
    jl_svec_ref (jl_svec_fill initState 2 (JlValue.obj 9)).2
      (jl_svec_fill initState 2 (JlValue.obj 9)).1 1
      = Except.ok (JlValue.obj 9) :=
  ⟨by decide, by decide,
   C7_fill_value initState 2 1 (JlValue.obj 9) (by decide) (by decide)⟩

/-- C9: the exported length read is total (no failure mode) and is a pure
metadata read: it returns the length header and leaves the entire state —
heap, intern table, and the allocator-invocation count that models
potential collection pauses (safepoints) — unchanged. -/
theorem C9_len_no_safepoint (st : GCState) (t : Nat) :
    jl_svec_len_export st t = ((heapObj st t).len, st) ∧
    (jl_svec_len_export st t).2.allocCount = st.allocCount ∧
    (jl_svec_len_export st t).2.heap = st.heap ∧
    (jl_svec_len_export st t).2.symtab = st.symtab :=
  ⟨rfl, rfl, rfl, rfl⟩

theorem copyloop_len (st : GCState) (a c i k t : Nat) :
    (heapObj (jl_svec_copy_loop st a c i k) t).len = (heapObj st t).len := by
  induction k generalizing st i with
  | zero => rfl
  | succ m ih => rw [jl_svec_copy_loop, ih, len_heapObj_svecset]

theorem uninit_len (st : GCState) (n : Nat) (hn : n ≠ 0) :
    jl_svec_len (jl_alloc_svec_uninit st n).2 (jl_alloc_svec_uninit st n).1
      = n := by
  rw [jl_alloc_svec_uninit_pos st n hn]
  simp [jl_svec_len, heapObj_append_len]

/-- C5: for every positive `n`, every constructor builds a vector whose
length reads back as `n` (for the copy constructor, as the source's
length; `jl_svec1` and `jl_svec2` have their arities as lengths). -/
theorem C5_constructed_length (st : GCState) (n : Nat) (hn : 0 < n)
    (x a b : JlValue) (args : List JlValue) (names : List String) :
    jl_svec_len (jl_alloc_svec_uninit st n).2 (jl_alloc_svec_uninit st n).1
      = n ∧
    jl_svec_len (jl_alloc_svec st n).2 (jl_alloc_svec st n).1 = n ∧
    jl_svec_len (jl_svec_fill st n x).2 (jl_svec_fill st n x).1 = n ∧
    jl_svec_len (ijl_svec st n args).2 (ijl_svec st n args).1 = n ∧
    jl_svec_len (jl_perm_symsvec st n names).2 (jl_perm_symsvec st n names).1
      = n ∧
    (∀ a0 : Nat, jl_svec_len st a0 = n →
      jl_svec_len (jl_svec_copy st a0).2 (jl_svec_copy st a0).1 = n) ∧
    jl_svec_len (jl_svec1 st a).2 (jl_svec1 st a).1 = 1 ∧
    jl_svec_len (jl_svec2 st a b).2 (jl_svec2 st a b).1 = 2 := by
  have hn' : n ≠ 0 := by omega
  refine ⟨uninit_len st n hn', ?_, ?_, ?_, ?_, ?_, ?_, ?_⟩
  · simp only [jl_alloc_svec, if_neg hn', jl_alloc_svec_uninit_pos st n hn',
      jl_svec_len]
    rw [wrloop_len, heapObj_append_len]
  · simp only [jl_svec_fill, if_neg hn', jl_alloc_svec_uninit_pos st n hn',
      jl_svec_len]
    rw [wrloop_len, heapObj_append_len]
  · simp only [ijl_svec, if_neg hn', jl_alloc_svec_uninit_pos st n hn',
      jl_svec_len]
    rw [wrloop_len, heapObj_append_len]
  · simp only [jl_perm_symsvec_pos st n names hn', jl_svec_len]
    rw [permloop_len, heapObj_append_len]
  · intro a0 h0
    simp only [jl_svec_copy, h0]
    rw [jl_alloc_svec_uninit_pos st n hn']
    simp only [jl_svec_len]
    rw [copyloop_len, heapObj_append_len]
  · simp only [jl_svec1, jl_gc_alloc, jl_svec_len]
    rw [len_heapObj_svecset, heapObj_setlen_self _ _ _ (by simp)]
  · simp only [jl_svec2, jl_gc_alloc, jl_svec_len]
    rw [len_heapObj_svecset, len_heapObj_svecset,
      heapObj_setlen_self _ _ _ (by simp)]

/-- C5 witness: all constructors at size 1 on a concrete state. -/
theorem C5_constructed_length_witness :
    0 < 1 ∧
    (jl_svec_len (jl_alloc_svec_uninit initState 1).2
        (jl_alloc_svec_uninit initState 1).1 = 1 ∧
    jl_svec_len (jl_alloc_svec initState 1).2 (jl_alloc_svec initState 1).1
      = 1 ∧
    jl_svec_len (jl_svec_fill initState 1 (JlValue.obj 3)).2
      (jl_svec_fill initState 1 (JlValue.obj 3)).1 = 1 ∧
    jl_svec_len (ijl_svec initState 1 [JlValue.obj 4]).2
      (ijl_svec initState 1 [JlValue.obj 4]).1 = 1 ∧
    jl_svec_len (jl_perm_symsvec initState 1 ["t"]).2
      (jl_perm_symsvec initState 1 ["t"]).1 = 1 ∧
    (∀ a0 : Nat, jl_svec_len initState a0 = 1 →
      jl_svec_len (jl_svec_copy initState a0).2
        (jl_svec_copy initState a0).1 = 1) ∧
    jl_svec_len (jl_svec1 initState (JlValue.obj 3)).2
      (jl_svec1 initState (JlValue.obj 3)).1 = 1 ∧
    jl_svec_len (jl_svec2 initState (JlValue.obj 3) (JlValue.obj 4)).2
      (jl_svec2 initState (JlValue.obj 3) (JlValue.obj 4)).1 = 2) :=
  ⟨by decide,
   C5_constructed_length initState 1 (by decide) (JlValue.obj 3)
     (JlValue.obj 3) (JlValue.obj 4) [JlValue.obj 4] ["t"]⟩

/-- C6: the variadic constructor preserves argument order: slot `i` of the
result holds the `(i+1)`-th variadic argument, and the result's length
is `n`. -/
theorem C6_variadic_order (st : GCState) (n i : Nat) (args : List JlValue)
    (hn : 0 < n) (hargs : n ≤ args.length) (hi : i < n) :
    jl_svecref (ijl_svec st n args).2 (ijl_svec st n args).1 i
      = some (args.getD i default) ∧
    jl_svec_len (ijl_svec st n args).2 (ijl_svec st n args).1 = n := by
  have hn' : n ≠ 0 := by omega
  constructor
  · simp only [ijl_svec, if_neg hn', jl_alloc_svec_uninit_pos st n hn']
    apply wrloop_ref_in
    · simp
    · omega
    · omega
    · rw [heapObj_append_len]
      simpa using hi
  · simp only [ijl_svec, if_neg hn', jl_alloc_svec_uninit_pos st n hn',
      jl_svec_len]
    rw [wrloop_len, heapObj_append_len]

/-- C6 witness: variadic-build of `(a, b)` puts `a` at slot 0 and `b` at
slot 1 of a length-2 vector. -/
theorem C6_variadic_order_witness :
    0 < 2 ∧ 2 ≤ ([JlValue.obj 1, JlValue.obj 2] : List JlValue).length ∧
    1 < 2 ∧
    (jl_svecref (ijl_svec initState 2 [JlValue.obj 1, JlValue.obj 2]).2
        (ijl_svec initState 2 [JlValue.obj 1, JlValue.obj 2]).1 1
      = some (([JlValue.obj 1, JlValue.obj 2] : List JlValue).getD 1 default) ∧
    jl_svec_len (ijl_svec initState 2 [JlValue.obj 1, JlValue.obj 2]).2
      (ijl_svec initState 2 [JlValue.obj 1, JlValue.obj 2]).1 = 2) :=
  ⟨by decide, by decide, by decide,
   C6_variadic_order initState 2 1 [JlValue.obj 1, JlValue.obj 2]
     (by decide) (by decide) (by decide)⟩

theorem copy_char (st : GCState) (a : Nat) (hn : jl_svec_len st a ≠ 0) :
    jl_svec_copy st a =
      (st.heap.length,
       jl_svec_copy_loop
         { heap := st.heap ++
             [⟨jl_svec_len st a, List.replicate (jl_svec_len st a) none,
               false⟩],
           symtab := st.symtab, allocCount := st.allocCount + 1 }
         a st.heap.length 0 (jl_svec_len st a)) := by
  simp only [jl_svec_copy]
  rw [jl_alloc_svec_uninit_pos st _ hn]

theorem copy_slot_raw (st : GCState) (a : Nat) (ha : a < st.heap.length)
    (i : Nat) (hi : i < jl_svec_len st a) :
    jl_svecref (jl_svec_copy st a).2 (jl_svec_copy st a).1 i
      = jl_svecref st a i := by
  have hn : jl_svec_len st a ≠ 0 := by omega
  simp only [copy_char st a hn]
  rw [copy_loop_eq_wrloop _ _ _ _ _ (show a ≠ st.heap.length by omega)]
  rw [wrloop_ref_in _ _ _ _ _ _ (by simp) (by omega) (by simpa using hi)
    (by rw [heapObj_append_len]; simpa using hi)]
  simp only [jl_svecref, heapObj_append_lt st _ _ _ a ha]

/-- C3 counterexample: copying the singleton empty vector returns the
singleton itself, so the identity of the copy equals the identity of the
source — the distinct-identity part of the claim fails for a zero-length
source. -/
theorem C3_copy_identity_counterexample :
    jl_svec_copy initState emptySVecAddr = (emptySVecAddr, initState) ∧
    jl_svec_len initState emptySVecAddr = 0 := by
  constructor <;> rfl

/-- C3 (amended): the copy agrees with the source slot-wise under the
checked accessor at every valid index; and whenever the source has
positive length the copy is a distinct object (the copy of the empty
vector is the singleton empty vector itself). -/
theorem C3_copy_amended (st : GCState) (a : Nat) (ha : a < st.heap.length) :
    (∀ i, i < jl_svec_len st a →
      jl_svec_ref (jl_svec_copy st a).2 (jl_svec_copy st a).1 i
        = jl_svec_ref st a i) ∧
    (0 < jl_svec_len st a → (jl_svec_copy st a).1 ≠ a) := by
  constructor
  · intro i hi
    exact jl_svec_ref_congr _ _ _ _ _ _ (copy_slot_raw st a ha i hi)
  · intro h0
    have hn : jl_svec_len st a ≠ 0 := by omega
    simp only [copy_char st a hn]
    omega

/-- C3 witness: a concrete positive-length source. -/
theorem C3_copy_amended_witness :
    1 < (jl_svec_fill initState 2 (JlValue.obj 7)).2.heap.length ∧
    ((∀ i, i < jl_svec_len (jl_svec_fill initState 2 (JlValue.obj 7)).2 1 →
      jl_svec_ref
        (jl_svec_copy (jl_svec_fill initState 2 (JlValue.obj 7)).2 1).2
        (jl_svec_copy (jl_svec_fill initState 2 (JlValue.obj 7)).2 1).1 i
        = jl_svec_ref (jl_svec_fill initState 2 (JlValue.obj 7)).2 1 i) ∧
    (0 < jl_svec_len (jl_svec_fill initState 2 (JlValue.obj 7)).2 1 →
      (jl_svec_copy (jl_svec_fill initState 2 (JlValue.obj 7)).2 1).1 ≠ 1)) :=
  ⟨by decide,
   C3_copy_amended (jl_svec_fill initState 2 (JlValue.obj 7)).2 1 (by decide)⟩

/-- C10: the copy constructor reads the source through the raw unchecked
accessor, so it cannot raise the unassigned-reference error even when the
source has unassigned slots: each slot of the copy holds exactly the
source's raw slot contents, and the is-assigned status of every slot
(unassigned included) is preserved. -/
theorem C10_copy_preserves_unassigned (st : GCState) (a : Nat)
    (ha : a < st.heap.length) :
    ∀ i, i < jl_svec_len st a →
      jl_svecref (jl_svec_copy st a).2 (jl_svec_copy st a).1 i
        = jl_svecref st a i ∧
      jl_svec_isassigned (jl_svec_copy st a).2 (jl_svec_copy st a).1 i
        = jl_svec_isassigned st a i := by
  intro i hi
  have h := copy_slot_raw st a ha i hi
  exact ⟨h, by simp [jl_svec_isassigned, h]⟩

/-- C10 witness: copying a concrete zero-initialized (all slots
unassigned) vector. -/
theorem C10_copy_preserves_unassigned_witness :
    1 < (jl_alloc_svec initState 2).2.heap.length ∧
    ∀ i, i < jl_svec_len (jl_alloc_svec initState 2).2 1 →
      jl_svecref (jl_svec_copy (jl_alloc_svec initState 2).2 1).2
        (jl_svec_copy (jl_alloc_svec initState 2).2 1).1 i
        = jl_svecref (jl_alloc_svec initState 2).2 1 i ∧
      jl_svec_isassigned (jl_svec_copy (jl_alloc_svec initState 2).2 1).2
        (jl_svec_copy (jl_alloc_svec initState 2).2 1).1 i
        = jl_svec_isassigned (jl_alloc_svec initState 2).2 1 i :=
  ⟨by decide,
   C10_copy_preserves_unassigned (jl_alloc_svec initState 2).2 1 (by decide)⟩

/-- C8: for positive `n`, the permanent-symbol constructor returns a
vector allocated in the permanent (non-collectible) region whose slot `i`
holds the interned symbol of the `(i+1)`-th name, assigned left to right —
looking that name up again in the resulting intern table yields the same
symbol id without any state change (process-wide interning) — and a second
call with the identical names returns a distinct vector instance. -/
theorem C8_perm_symsvec_build (st : GCState) (n : Nat) (names : List String)
    (hn : 0 < n) (hnames : n ≤ names.length) :
    (heapObj (jl_perm_symsvec st n names).2
      (jl_perm_symsvec st n names).1).perm = true ∧
    (∀ i, i < n → ∃ s : Nat,
      jl_svecref (jl_perm_symsvec st n names).2
        (jl_perm_symsvec st n names).1 i = some (JlValue.sym s) ∧
      jl_symbol (jl_perm_symsvec st n names).2 (names.getD i "")
        = (s, (jl_perm_symsvec st n names).2)) ∧
    (jl_perm_symsvec (jl_perm_symsvec st n names).2 n names).1
      ≠ (jl_perm_symsvec st n names).1 := by
  have hn' : n ≠ 0 := by omega
  refine ⟨?_, ?_, ?_⟩
  · simp only [jl_perm_symsvec_pos st n names hn']
    rw [permloop_perm, heapObj_append_len]
  · intro i hi
    simp only [jl_perm_symsvec_pos st n names hn']
    exact permloop_slot_interned names _ st.heap.length 0 n i (by simp)
      (Nat.zero_le i) (by omega)
      (by rw [heapObj_append_len]; simpa using hi)
  · have h1 : (jl_perm_symsvec st n names).1 = st.heap.length := by
      simp only [jl_perm_symsvec_pos st n names hn']
    have h2 : (jl_perm_symsvec st n names).2.heap.length
        = st.heap.length + 1 := by
      simp only [jl_perm_symsvec_pos st n names hn']
      rw [permloop_heap_length]
      simp
    have h3 : (jl_perm_symsvec (jl_perm_symsvec st n names).2 n names).1
        = (jl_perm_symsvec st n names).2.heap.length := by
      simp only
        [jl_perm_symsvec_pos (jl_perm_symsvec st n names).2 n names hn']
    omega

/-- C8 witness: two names on the initial state. -/
theorem C8_perm_symsvec_build_witness :
    0 < 2 ∧ 2 ≤ (["a", "b"] : List String).length ∧
    ((heapObj (jl_perm_symsvec initState 2 ["a", "b"]).2
      (jl_perm_symsvec initState 2 ["a", "b"]).1).perm = true ∧
    (∀ i, i < 2 → ∃ s : Nat,
      jl_svecref (jl_perm_symsvec initState 2 ["a", "b"]).2
        (jl_perm_symsvec initState 2 ["a", "b"]).1 i
        = some (JlValue.sym s) ∧
      jl_symbol (jl_perm_symsvec initState 2 ["a", "b"]).2
        ((["a", "b"] : List String).getD i "")
        = (s, (jl_perm_symsvec initState 2 ["a", "b"]).2)) ∧
    (jl_perm_symsvec (jl_perm_symsvec initState 2 ["a", "b"]).2
      2 ["a", "b"]).1 ≠ (jl_perm_symsvec initState 2 ["a", "b"]).1) :=
  ⟨by decide, by decide,
   C8_perm_symsvec_build initState 2 ["a", "b"] (by decide) (by decide)⟩

end SimpleVector
